import Mathlib

/-!
Verification development for `github_clone_all_repos.py`, a script that lists
all public non-fork repositories of a GitHub account and clones each one into a
fresh destination directory using a bounded thread pool with per-repository
retries.

The Python source is shallowly embedded below:
* the HTTP listing collaborator (`requests.get`) is modelled as a scripted
  stream of responses, one per successive request; each response is either a
  JSON page of repository descriptors (with a `next` pagination link flag) or a
  raised error (network failure / non-success status whose body breaks the
  list comprehension);
* the git clone collaborator (`subprocess.run`) is modelled as an oracle
  `attemptOk : Nat → Bool` giving the outcome of each successive attempt for a
  repository (`True` = exit code 0, `False` = `CalledProcessError`);
* the filesystem is the list of existing paths; `os.path.exists` is membership,
  `os.makedirs` appends;
* functions return, besides their value, instrumentation (number of attempts
  made, event traces) so that temporal claims can be stated.
-/

namespace GhCloneAll

/-- One repository descriptor of the JSON listing body: the fields the script
reads are `fork`, `private` (called `priv` here, `private` being reserved) and
`clone_url`. -/
structure Repo where
  fork : Bool
  priv : Bool
  clone_url : String
deriving DecidableEq, Repr

/-- One page of the paginated listing: its JSON body and whether the `Link`
response header carries a `next` relation. -/
structure Page where
  body : List Repo
  hasNext : Bool
deriving DecidableEq, Repr

/-- A failure of one remote listing request (network error, or a non-success
status whose JSON body is not a repository array and makes
`repo["fork"]` raise). -/
structure ListErr where
  msg : String
deriving DecidableEq, Repr

/-- The URLs `get_public_repos` extracts from one page (lines 49-52 of the
source): drop descriptors with `fork` set; when no token is supplied
additionally drop descriptors with `private` set; keep each survivor's
`clone_url`. -/
def pageUrls (pat_token : Option String) (p : Page) : List String :=
  let repos := p.body.filter (fun r => !r.fork)
  let repos2 := if pat_token.isNone then repos.filter (fun r => !r.priv) else repos
  repos2.map (fun r => r.clone_url)

/-- Embedding of `get_public_repos`, instrumented with the number of HTTP
requests issued. The argument is the scripted stream of successive responses.
A response that is an error propagates (the exception escapes after that single
request, no retry); an ok page contributes its filtered URLs, and when its
`Link` header has a `next` relation the function recurses on the rest of the
stream and appends the recursive result, exactly as
`repo_urls += get_public_repos(username, pat_token, next_page_url)` does. -/
def get_public_repos_t (pat_token : Option String) :
    List (Except ListErr Page) → Except ListErr (List String) × Nat
  | [] => (Except.ok [], 0)
  | Except.error e :: _ => (Except.error e, 1)
  | Except.ok p :: rest =>
    if p.hasNext then
      let r := get_public_repos_t pat_token rest
      (r.1.map (fun more => pageUrls pat_token p ++ more), r.2 + 1)
    else (Except.ok (pageUrls pat_token p), 1)

/-- The value `get_public_repos` returns (or the error it raises). -/
def get_public_repos (pat_token : Option String)
    (resps : List (Except ListErr Page)) : Except ListErr (List String) :=
  (get_public_repos_t pat_token resps).1

/-- The `next`-link shape of an N-page listing: every page but the last carries
a `next` link, the last does not. -/
def nextChain : List Page → Bool
  | [] => true
  | [p] => !p.hasNext
  | p :: q :: rest => p.hasNext && nextChain (q :: rest)

/-- Python's `s.split(sep)` on a single-character separator, over `List Char`:
every occurrence of the separator splits, empty segments are kept, and the
empty string yields `[""]`. -/
def pySplit (sep : Char) : List Char → List (List Char)
  | [] => [[]]
  | c :: cs =>
    match pySplit sep cs with
    | [] => [[]]
    | seg :: segs => if c = sep then [] :: seg :: segs else (c :: seg) :: segs

/-- The pattern `".git"` as a character list. -/
def dotGit : List Char := ['.', 'g', 'i', 't']

/-- The left-to-right scan of Python's `s.replace(".git", "")`, written with a
skip counter so the recursion is structural: in state `0` the scanner looks for
an occurrence of `".git"` at the current position and, on a match, emits
nothing and enters state `3` (the matched char plus three more are consumed);
in state `k + 1` it discards the current char and decrements. -/
def replaceDotGitAux : Nat → List Char → List Char
  | _, [] => []
  | 0, c :: cs =>
    if dotGit.isPrefixOf (c :: cs) then replaceDotGitAux 3 cs
    else c :: replaceDotGitAux 0 cs
  | k + 1, _ :: cs => replaceDotGitAux k cs

/-- Python's `s.replace(".git", "")`: scan left to right, delete every
(non-overlapping) occurrence of `".git"`. This is NOT a trailing-suffix strip:
occurrences anywhere in the string are removed. -/
def replaceDotGit (s : List Char) : List Char :=
  replaceDotGitAux 0 s

/-- Embedding of line 104 of the source,
`repo.split("/")[-1].replace(".git", "")`: the final `/`-separated segment of
the URL, with every occurrence of `".git"` removed. -/
def repoNameOf (repo : String) : String :=
  String.mk (replaceDotGit ((pySplit '/' repo.data).getLastD []))

/-- The error `run_git_clone` raises when the retry loop exhausts:
`RuntimeError(f"Failed to clone {repo_name} after {max_retries} retries")`.
It carries the repository name and the value of the `max_retries` counter *at
raise time* (after the in-loop decrements). -/
structure CloneError where
  repoName : String
  retriesReported : Nat
deriving DecidableEq, Repr

/-- The retry loop of `run_git_clone` (lines 73-92). `counter` is the mutable
`max_retries` variable, `made` the number of attempts performed so far. Each
loop iteration runs one `git clone` attempt: on exit code 0 it returns, on a
`CalledProcessError` it decrements the counter, sleeps, and loops. When the
counter reaches 0 the loop exits and the `RuntimeError` is raised with the
*current* (fully decremented, hence zero) counter value in its message. The
second component of the result is the total number of attempts made. -/
def runGitCloneAux (attemptOk : Nat → Bool) (repo_name : String) :
    Nat → Nat → Except CloneError Unit × Nat
  | 0, made => (Except.error ⟨repo_name, 0⟩, made)
  | c + 1, made =>
    if attemptOk made then (Except.ok (), made + 1)
    else runGitCloneAux attemptOk repo_name c (made + 1)

/-- Embedding of `run_git_clone repo directory repo_name max_retries`: run the
retry loop starting with zero attempts made. The `repo`/`directory` strings
only shape the shell command, which the attempt oracle abstracts, so the model
keeps the name (used in the error) and the retry budget. -/
def run_git_clone (attemptOk : Nat → Bool) (repo_name : String)
    (max_retries : Nat) : Except CloneError Unit × Nat :=
  runGitCloneAux attemptOk repo_name max_retries 0

/-- Embedding of `clone_repo` (lines 95-108): derive the local name from the
URL, then call `run_git_clone` with the *default* retry budget 5 (the call on
line 107 passes no `max_retries`). Returns the name on success, propagates the
`RuntimeError` otherwise; second component is the attempt count. -/
def clone_repo (attemptOk : Nat → Bool) (repo directory : String) :
    Except CloneError String × Nat :=
  let repo_name := repoNameOf repo
  match run_git_clone attemptOk repo_name 5 with
  | (Except.ok _, n) => (Except.ok repo_name, n)
  | (Except.error e, n) => (Except.error e, n)

/-- Observable events of a run: one HTTP listing request (numbered in issue
order), the `os.path.exists(directory)` precondition check at the top of
`clone_repos`, and one `git clone` attempt for a URL. -/
inductive Ev where
  | fetch : Nat → Ev
  | existsCheck : Ev
  | attempt : String → Ev
deriving DecidableEq, Repr

/-- The per-item outcome `clone_repos` records for one submitted URL (keyed, as
in `future_to_repo`, by the URL): either the clone succeeded, or the caught
exception. -/
structure CloneOutcome where
  url : String
  result : Except CloneError Unit
deriving Repr

/-- The outcome `clone_repos` collects for one URL in the `as_completed` loop
(lines 149-153): `future.result()` either returns, or raises the
`RuntimeError`, which is caught and logged per item. Second component is the
attempt count of that task. -/
def repoOutcome (attemptOk : String → Nat → Bool) (directory repo : String) :
    CloneOutcome × Nat :=
  match clone_repo (attemptOk repo) repo directory with
  | (Except.ok _, n) => (⟨repo, Except.ok ()⟩, n)
  | (Except.error e, n) => (⟨repo, Except.error e⟩, n)

/-- Embedding of `clone_repos` (lines 111-153). The filesystem is the list of
existing paths. If the destination already exists, `FileExistsError` is raised
(the returned error message is the exception's text) before any task is
submitted: the trace holds only the existence check and the filesystem is
untouched. Otherwise the directory is created, every URL is submitted and runs
to a terminal state, each outcome being caught and recorded per item; the trace
records the existence check followed by every clone attempt. The thread-pool
interleaving is abstracted to submission order (outcome collection is
order-insensitive here); its concurrency bound is modelled separately by
`PoolStep`. Result: (value or fatal error, event trace, filesystem after). -/
def clone_repos (attemptOk : String → Nat → Bool) (repos : List String)
    (fs : List String) (directory : String) :
    Except String (List CloneOutcome) × List Ev × List String :=
  if directory ∈ fs then
    (Except.error ("Directory " ++ directory ++ " already exists."),
     [Ev.existsCheck], fs)
  else
    (Except.ok (repos.map (fun r => (repoOutcome attemptOk directory r).1)),
     Ev.existsCheck ::
       (repos.map (fun r =>
         List.replicate (repoOutcome attemptOk directory r).2 (Ev.attempt r))).flatten,
     fs ++ [directory])

/-- The two ways a run of `main` dies before reporting outcomes: an uncaught
exception out of `get_public_repos` (fatal listing error), or the
`FileExistsError` out of `clone_repos` (fatal configuration error). Per-item
clone failures are *not* of this type: they live inside the `CloneOutcome`
list. -/
inductive MainErr where
  | listing : ListErr → MainErr
  | fatalConfig : String → MainErr
deriving DecidableEq, Repr

/-- The trace of the first `n` listing requests, in issue order. -/
def fetchEvs (n : Nat) : List Ev := (List.range n).map Ev.fetch

/-- Embedding of `main` (lines 156-183) after token resolution:
`repos = get_public_repos(username, token)` runs first — issuing every listing
request — and only then is `clone_repos(repos, directory, ...)` called, whose
first action is the destination existence check. The result pairs the value
(or the first uncaught exception) with the full event trace. -/
def main (pat_token : Option String) (resps : List (Except ListErr Page))
    (attemptOk : String → Nat → Bool) (fs : List String) (directory : String) :
    Except MainErr (List CloneOutcome) × List Ev :=
  match get_public_repos_t pat_token resps with
  | (Except.error e, n) => (Except.error (MainErr.listing e), fetchEvs n)
  | (Except.ok repos, n) =>
    match clone_repos attemptOk repos fs directory with
    | (Except.error m, evs, _) => (Except.error (MainErr.fatalConfig m), fetchEvs n ++ evs)
    | (Except.ok outs, evs, _) => (Except.ok outs, fetchEvs n ++ evs)

/-- State of the `ThreadPoolExecutor(max_workers=n_threads)` during a batch:
how many submitted tasks have not started, how many `clone_repo` invocations
are executing right now (each occupies one worker slot for its whole duration,
retries included), and how many have reached a terminal state. -/
structure PoolState where
  pending : Nat
  running : Nat
  completed : Nat
deriving DecidableEq, Repr

/-- One scheduling step of the bounded worker pool: a pending task may start
only while fewer than `maxWorkers` tasks are running (the pool's `max_workers`
contract — excess tasks queue until a slot frees), and a running task may
finish. -/
inductive PoolStep (maxWorkers : Nat) : PoolState → PoolState → Prop
  | start (p r d : Nat) : r < maxWorkers →
      PoolStep maxWorkers ⟨p + 1, r, d⟩ ⟨p, r + 1, d⟩
  | finish (p r d : Nat) :
      PoolStep maxWorkers ⟨p, r + 1, d⟩ ⟨p, r, d + 1⟩

/-- Reachability under pool scheduling steps. -/
inductive PoolReach (maxWorkers : Nat) (init : PoolState) : PoolState → Prop
  | refl : PoolReach maxWorkers init init
  | step {s t : PoolState} : PoolReach maxWorkers init s →
      PoolStep maxWorkers s t → PoolReach maxWorkers init t

/-- The pool state at the start of a batch of `clone_repos`: one pending task
per submitted repository URL, nothing running, nothing completed. -/
def batchInit (repos : List String) : PoolState := ⟨repos.length, 0, 0⟩

/-- The name derivation as §3 of the design document words it: the URL's final
path segment with a trailing `".git"` extension marker stripped, and only a
trailing one. -/
def claimNameTrailing (repo : String) : String :=
  let seg := (pySplit '/' repo.data).getLastD []
  if dotGit.isSuffixOf seg then String.mk (seg.take (seg.length - 4))
  else String.mk seg

/-- The scan of `splitDotGitAux`: the final segment cut at every occurrence of
`".git"`, written with the same skip-counter device as `replaceDotGitAux`. -/
def splitDotGitAux : Nat → List Char → List (List Char)
  | _, [] => [[]]
  | 0, c :: cs =>
    if dotGit.isPrefixOf (c :: cs) then [] :: splitDotGitAux 3 cs
    else
      match splitDotGitAux 0 cs with
      | [] => [[c]]
      | seg :: segs => (c :: seg) :: segs
  | k + 1, _ :: cs => splitDotGitAux k cs

/-- The corrected reading of the name derivation: the string split at every
occurrence of `".git"`, with the pieces concatenated — that is, every
occurrence of `".git"` removed, not only a trailing one. -/
def stripAllDotGit (s : List Char) : List Char :=
  (splitDotGitAux 0 s).flatten

/-- Splitting at every `".git"` occurrence and concatenating the pieces agrees
with the replace-by-empty scan, in every skip state. -/
theorem splitDotGitAux_flatten : ∀ (k : Nat) (s : List Char),
    (splitDotGitAux k s).flatten = replaceDotGitAux k s
  | _, [] => by cases ‹Nat› <;> simp [splitDotGitAux, replaceDotGitAux]
  | 0, c :: cs => by
    by_cases h : dotGit.isPrefixOf (c :: cs)
    · simp [splitDotGitAux, replaceDotGitAux, h, splitDotGitAux_flatten 3 cs]
    · have ih := splitDotGitAux_flatten 0 cs
      rw [splitDotGitAux, replaceDotGitAux]
      simp only [h, Bool.false_eq_true, if_false]
      cases hs : splitDotGitAux 0 cs with
      | nil => rw [hs] at ih; simp at ih; simp [← ih]
      | cons seg segs => rw [hs] at ih; simp [← ih]
  | k + 1, c :: cs => by
    simp [splitDotGitAux, replaceDotGitAux, splitDotGitAux_flatten k cs]

/-- When every attempt fails, the retry loop performs exactly `counter` further
attempts and raises the error carrying the fully decremented counter, 0. -/
theorem runGitCloneAux_allFail (attemptOk : Nat → Bool) (repo_name : String)
    (hfail : ∀ n, attemptOk n = false) :
    ∀ (c made : Nat), runGitCloneAux attemptOk repo_name c made
      = (Except.error ⟨repo_name, 0⟩, made + c)
  | 0, made => by simp [runGitCloneAux]
  | c + 1, made => by
    rw [runGitCloneAux]
    simp only [hfail made, Bool.false_eq_true, if_false,
      runGitCloneAux_allFail attemptOk repo_name hfail c (made + 1)]
    congr 1
    omega

/-- When every attempt fails, `run_git_clone` with budget `R` makes exactly `R`
attempts and raises the error carrying the repository name and counter 0. -/
theorem run_git_clone_allFail (attemptOk : Nat → Bool) (repo_name : String)
    (hfail : ∀ n, attemptOk n = false) (max_retries : Nat) :
    run_git_clone attemptOk repo_name max_retries
      = (Except.error ⟨repo_name, 0⟩, max_retries) := by
  rw [run_git_clone, runGitCloneAux_allFail attemptOk repo_name hfail]
  simp

/-- When the first attempt succeeds, `run_git_clone` with a positive budget
returns after exactly one attempt. -/
theorem run_git_clone_firstOk (attemptOk : Nat → Bool) (repo_name : String)
    (h : attemptOk 0 = true) (c : Nat) :
    run_git_clone attemptOk repo_name (c + 1) = (Except.ok (), 1) := by
  rw [run_git_clone, runGitCloneAux]
  simp [h]

/-- One-step unfolding of `get_public_repos_t` on an ok response. -/
theorem get_public_repos_t_cons_ok (pat_token : Option String) (p : Page)
    (rest : List (Except ListErr Page)) :
    get_public_repos_t pat_token (Except.ok p :: rest)
      = if p.hasNext then
          ((get_public_repos_t pat_token rest).1.map
             (fun more => pageUrls pat_token p ++ more),
           (get_public_repos_t pat_token rest).2 + 1)
        else (Except.ok (pageUrls pat_token p), 1) := rfl

/-- The listing of a well-formed `N`-page chain: `get_public_repos` issues
exactly `N` requests and returns the page-order concatenation of the filtered
URLs of all pages. -/
theorem get_public_repos_t_chain (pat_token : Option String) :
    ∀ ps : List Page, nextChain ps = true →
      get_public_repos_t pat_token (ps.map Except.ok)
        = (Except.ok ((ps.map (pageUrls pat_token)).flatten), ps.length)
  | [], _ => by simp [get_public_repos_t]
  | [p], h => by
    have hp : p.hasNext = false := by simpa [nextChain] using h
    simp [get_public_repos_t_cons_ok, hp]
  | p :: q :: rest, h => by
    rw [nextChain] at h
    simp only [Bool.and_eq_true] at h
    have ih := get_public_repos_t_chain pat_token (q :: rest) h.2
    rw [List.map_cons, get_public_repos_t_cons_ok, ih]
    simp [h.1, Except.map]

/-- When the first `k` responses are pages carrying a `next` link and the next
response is a failure, the Lister issues exactly `k + 1` requests — one single
attempt at the failing request, no retry — and the error propagates. -/
theorem get_public_repos_t_err (pat_token : Option String) (e : ListErr)
    (tail : List (Except ListErr Page)) :
    ∀ ps : List Page, (∀ p ∈ ps, p.hasNext = true) →
      get_public_repos_t pat_token (ps.map Except.ok ++ Except.error e :: tail)
        = (Except.error e, ps.length + 1)
  | [], _ => by simp [get_public_repos_t]
  | p :: ps, h => by
    have hp : p.hasNext = true := h p (by simp)
    have ih := get_public_repos_t_err pat_token e tail ps
      (fun q hq => h q (by simp [hq]))
    rw [List.map_cons, List.cons_append, get_public_repos_t_cons_ok, ih]
    simp [hp, Except.map]

/-- Every URL of one filtered page comes from a descriptor of that page's body
that is not a fork, and — when no token is supplied — not private. -/
theorem mem_pageUrls {pat_token : Option String} {p : Page} {url : String}
    (h : url ∈ pageUrls pat_token p) :
    ∃ r, r ∈ p.body ∧ r.clone_url = url ∧ r.fork = false
      ∧ (pat_token = none → r.priv = false) := by
  cases pat_token with
  | none =>
    simp only [pageUrls, Option.isNone_none, if_true, List.mem_map,
      List.mem_filter, Bool.not_eq_eq_eq_not, Bool.not_true] at h
    obtain ⟨r, ⟨⟨hr, hf⟩, hp⟩, hu⟩ := h
    exact ⟨r, hr, hu, hf, fun _ => hp⟩
  | some t =>
    simp only [pageUrls, Option.isNone_some, Bool.false_eq_true, if_false,
      List.mem_map, List.mem_filter, Bool.not_eq_eq_eq_not, Bool.not_true] at h
    obtain ⟨r, ⟨hr, hf⟩, hu⟩ := h
    exact ⟨r, hr, hu, hf, fun hn => by cases hn⟩

/-- Provenance of the Lister's output: every returned URL is the `clone_url`
of some descriptor of some fetched page, with the fork flag unset, and with the
private flag unset when no token was supplied. -/
theorem get_public_repos_sound (pat_token : Option String) :
    ∀ (resps : List (Except ListErr Page)) (urls : List String),
      (get_public_repos_t pat_token resps).1 = Except.ok urls →
      ∀ url ∈ urls, ∃ p, Except.ok p ∈ resps ∧ ∃ r, r ∈ p.body ∧
        r.clone_url = url ∧ r.fork = false ∧ (pat_token = none → r.priv = false)
  | [], urls, h, url, hu => by
    simp only [get_public_repos_t, Except.ok.injEq] at h
    subst h
    cases hu
  | Except.error e :: rest, urls, h, url, hu => by
    simp [get_public_repos_t] at h
  | Except.ok p :: rest, urls, h, url, hu => by
    by_cases hn : p.hasNext
    · simp only [get_public_repos_t, hn, if_true] at h
      cases hres : (get_public_repos_t pat_token rest).1 with
      | error e => rw [hres] at h; simp [Except.map] at h
      | ok more =>
        rw [hres] at h
        simp only [Except.map, Except.ok.injEq] at h
        subst h
        rcases List.mem_append.mp hu with hu' | hu'
        · obtain ⟨r, hr, hcu, hf, hp⟩ := mem_pageUrls hu'
          exact ⟨p, by simp, r, hr, hcu, hf, hp⟩
        · obtain ⟨p', hp', hrest⟩ :=
            get_public_repos_sound pat_token rest more hres url hu'
          exact ⟨p', by simp [hp'], hrest⟩
    · simp only [get_public_repos_t, hn, Bool.false_eq_true, if_false,
        Except.ok.injEq] at h
      subst h
      obtain ⟨r, hr, hcu, hf, hp⟩ := mem_pageUrls hu
      exact ⟨p, by simp, r, hr, hcu, hf, hp⟩

/-- The event trace of `clone_repos` never contains a listing request. -/
theorem clone_repos_no_fetch (attemptOk : String → Nat → Bool)
    (repos fs : List String) (directory : String) (i : Nat) :
    Ev.fetch i ∉ (clone_repos attemptOk repos fs directory).2.1 := by
  unfold clone_repos
  by_cases h : directory ∈ fs
  · simp [h]
  · simp only [h, if_false]
    intro hmem
    rcases List.mem_cons.mp hmem with hc | hc
    · cases hc
    · obtain ⟨l, hl, hil⟩ := List.mem_flatten.mp hc
      obtain ⟨r, _, rfl⟩ := List.mem_map.mp hl
      have := (List.mem_replicate.mp hil).2
      cases this

/-- Whether an outcome records a caught clone failure. -/
def CloneOutcome.failed (o : CloneOutcome) : Bool :=
  match o.result with
  | Except.ok _ => false
  | Except.error _ => true

/-- A repository whose every attempt fails exhausts the default budget of 5
and yields the caught error carrying its name and counter 0. -/
theorem repoOutcome_allFail (aok : String → Nat → Bool) (directory r : String)
    (h : ∀ n, aok r n = false) :
    repoOutcome aok directory r = (⟨r, Except.error ⟨repoNameOf r, 0⟩⟩, 5) := by
  simp [repoOutcome, clone_repo, run_git_clone_allFail (aok r) (repoNameOf r) h 5]

/-- A repository whose first attempt succeeds completes after one attempt. -/
theorem repoOutcome_firstOk (aok : String → Nat → Bool) (directory r : String)
    (h : aok r 0 = true) :
    repoOutcome aok directory r = (⟨r, Except.ok ()⟩, 1) := by
  have h5 : run_git_clone (aok r) (repoNameOf r) 5 = (Except.ok (), 1) :=
    run_git_clone_firstOk (aok r) (repoNameOf r) h 4
  simp [repoOutcome, clone_repo, h5]

/-- In a batch where exactly the URL `f` always fails and every other URL
succeeds at once, the recorded outcomes are failure for `f` and success for
the rest. -/
theorem clone_repos_outcomes_map (aok : String → Nat → Bool) (directory f : String)
    (hfail : ∀ n, aok f n = false) (hsucc : ∀ r, r ≠ f → ∀ n, aok r n = true) :
    ∀ repos : List String,
      repos.map (fun r => (repoOutcome aok directory r).1)
        = repos.map (fun r =>
            if r = f then ⟨r, Except.error ⟨repoNameOf f, 0⟩⟩
            else ⟨r, Except.ok ()⟩)
  | [] => rfl
  | r :: rs => by
    have ih := clone_repos_outcomes_map aok directory f hfail hsucc rs
    by_cases h : r = f
    · subst h
      rw [List.map_cons, List.map_cons, repoOutcome_allFail aok directory r hfail, ih]
      simp
    · rw [List.map_cons, List.map_cons,
        repoOutcome_firstOk aok directory r (hsucc r h 0), ih]
      simp [h]

/-- Counting outcomes of a batch in which exactly the occurrences of `f` fail:
the failures number `count f` and the successes the rest. -/
theorem outcomes_count_aux (f : String) (F S : String → CloneOutcome)
    (hF : ∀ r, (F r).failed = true) (hS : ∀ r, (S r).failed = false) :
    ∀ repos : List String,
      (repos.map (fun r => if r = f then F r else S r)).countP CloneOutcome.failed
         = repos.count f
      ∧ (repos.map (fun r => if r = f then F r else S r)).countP
           (fun o => !(o.failed)) = repos.length - repos.count f
  | [] => by simp
  | r :: rs => by
    obtain ⟨ih1, ih2⟩ := outcomes_count_aux f F S hF hS rs
    have hle : rs.count f ≤ rs.length := List.count_le_length f rs
    by_cases h : r = f <;>
      simp [List.count_cons, List.countP_cons, h, hF, hS, ih1, ih2] <;>
      omega

/-- C1 (amended): for every retry budget R ≥ 1, when every clone attempt
fails, `run_git_clone` makes exactly R attempts and then raises an error
carrying the repository name and the residual retry counter — which at that
point has been decremented to 0, so the reported retry count is 0, not R; the
error is caught per item by `clone_repos`, which records the failure as an
outcome instead of crashing. -/
theorem run_git_clone_exhaustion_behavior (repo_name : String) (R : Nat)
    (attemptOk : Nat → Bool) (hR : 1 ≤ R) (hfail : ∀ n, attemptOk n = false) :
    run_git_clone attemptOk repo_name R = (Except.error ⟨repo_name, 0⟩, R)
      ∧ ∀ (aok : String → Nat → Bool) (url : String) (fs : List String)
          (directory : String), directory ∉ fs → (∀ n, aok url n = false) →
          (clone_repos aok [url] fs directory).1
            = Except.ok [⟨url, Except.error ⟨repoNameOf url, 0⟩⟩] := by
  refine ⟨run_git_clone_allFail attemptOk repo_name hfail R, ?_⟩
  intro aok url fs directory hdir hf
  simp only [clone_repos, hdir, if_false, List.map_cons, List.map_nil,
    repoOutcome_allFail aok directory url hf]

/-- C1 witness at R = 3 with an always-failing collaborator. -/
theorem run_git_clone_exhaustion_behavior_witness :
    (1 ≤ 3)
      ∧ run_git_clone (fun _ => false) "repo" 3 = (Except.error ⟨"repo", 0⟩, 3)
      ∧ (clone_repos (fun _ _ => false) ["u/r.git"] [] "dest").1
          = Except.ok [⟨"u/r.git", Except.error ⟨"r", 0⟩⟩] := by
  have h := run_git_clone_exhaustion_behavior "repo" 3 (fun _ => false)
      (by decide) (fun _ => rfl)
  exact ⟨by decide, h.1,
    (h.2 (fun _ _ => false) "u/r.git" [] "dest" (by simp) (fun _ => rfl)).trans
      (by rfl)⟩

/-- C1 counterexample to the claim as stated: with retry budget R = 1 and every
attempt failing, the error raised after the single attempt reports 0 retries in
its message, not the number of attempts made (1). -/
theorem run_git_clone_error_reports_zero_not_R :
    run_git_clone (fun _ => false) "repo" 1 = (Except.error ⟨"repo", 0⟩, 1)
      ∧ (⟨"repo", 0⟩ : CloneError).retriesReported ≠ 1 :=
  ⟨rfl, by decide⟩

/-- C2: in a batch where exactly one URL always fails (exhausting its retries)
and every other URL always succeeds, `clone_repos` completes normally (no
batch-level error), every other repository's clone runs to success, and the one
failure appears only as the recorded per-item outcome: one failed outcome,
M - 1 successful ones. -/
theorem clone_repos_isolation (repos : List String) (f directory : String)
    (fs : List String) (aok : String → Nat → Bool)
    (hdir : directory ∉ fs) (hcount : repos.count f = 1)
    (hfail : ∀ n, aok f n = false)
    (hsucc : ∀ r, r ≠ f → ∀ n, aok r n = true) :
    (clone_repos aok repos fs directory).1
        = Except.ok (repos.map (fun r =>
            if r = f then ⟨r, Except.error ⟨repoNameOf f, 0⟩⟩
            else ⟨r, Except.ok ()⟩))
      ∧ (repos.map (fun r =>
            if r = f then (⟨r, Except.error ⟨repoNameOf f, 0⟩⟩ : CloneOutcome)
            else ⟨r, Except.ok ()⟩)).countP CloneOutcome.failed = 1
      ∧ (repos.map (fun r =>
            if r = f then (⟨r, Except.error ⟨repoNameOf f, 0⟩⟩ : CloneOutcome)
            else ⟨r, Except.ok ()⟩)).countP (fun o => !(o.failed))
          = repos.length - 1 := by
  have hcnt := outcomes_count_aux f
      (fun r => ⟨r, Except.error ⟨repoNameOf f, 0⟩⟩)
      (fun r => ⟨r, Except.ok ()⟩) (fun _ => rfl) (fun _ => rfl) repos
  refine ⟨?_, ?_, ?_⟩
  · simp only [clone_repos, hdir, if_false]
    rw [clone_repos_outcomes_map aok directory f hfail hsucc repos]
  · exact hcnt.1.trans hcount
  · have h2 := hcnt.2
    rw [hcount] at h2
    exact h2

/-- C2 witness: a 3-repository batch in which only `"u/b"` fails. -/
theorem clone_repos_isolation_witness :
    (["u/a", "u/b", "u/c"].count "u/b" = 1)
      ∧ (clone_repos (fun r _ => !(r == "u/b")) ["u/a", "u/b", "u/c"] [] "dest").1
          = Except.ok [⟨"u/a", Except.ok ()⟩,
                       ⟨"u/b", Except.error ⟨"b", 0⟩⟩,
                       ⟨"u/c", Except.ok ()⟩] := by
  have h := clone_repos_isolation ["u/a", "u/b", "u/c"] "u/b" "dest" []
      (fun r _ => !(r == "u/b")) (by simp) (by decide)
      (fun _ => rfl) (fun r hr _ => by simp [hr])
  exact ⟨by decide, h.1.trans (by rfl)⟩

/-- C3: invoked with a destination directory that already exists, `clone_repos`
raises `FileExistsError` before submitting any task: the trace holds only the
existence check (zero clone attempts) and the filesystem is unchanged. -/
theorem clone_repos_pre_existing_dir (aok : String → Nat → Bool)
    (repos fs : List String) (directory : String) (hdir : directory ∈ fs) :
    clone_repos aok repos fs directory
      = (Except.error ("Directory " ++ directory ++ " already exists."),
         [Ev.existsCheck], fs)
      ∧ ∀ u, Ev.attempt u ∉ (clone_repos aok repos fs directory).2.1 := by
  refine ⟨by simp [clone_repos, hdir], ?_⟩
  intro u
  simp [clone_repos, hdir]

/-- C3 witness: destination `"dest"` already present in the filesystem. -/
theorem clone_repos_pre_existing_dir_witness :
    clone_repos (fun _ _ => true) ["u/a"] ["dest"] "dest"
      = (Except.error "Directory dest already exists.", [Ev.existsCheck], ["dest"])
      ∧ ∀ u, Ev.attempt u
          ∉ (clone_repos (fun _ _ => true) ["u/a"] ["dest"] "dest").2.1 := by
  have h := clone_repos_pre_existing_dir (fun _ _ => true) ["u/a"] ["dest"] "dest"
      (by simp)
  exact ⟨h.1.trans (by rfl), h.2⟩

/-- C4: with `max_workers = n_threads` and any number of submitted tasks, every
state the worker pool can reach from the start of the batch has at most
`n_threads` concurrently executing `clone_repo` invocations; a pending task may
only start when a slot is free. -/
theorem pool_concurrency_bound (n_threads : Nat) (repos : List String)
    (s : PoolState) (h : PoolReach n_threads (batchInit repos) s) :
    s.running ≤ n_threads := by
  induction h with
  | refl => exact Nat.zero_le _
  | step hr hstep ih =>
    cases hstep with
    | start p r d hlt => exact hlt
    | finish p r d => exact Nat.le_of_succ_le ih

/-- C4 witness: a pool of 2 workers over 3 tasks, after two tasks started. -/
theorem pool_concurrency_bound_witness :
    PoolState.running ⟨1, 2, 0⟩ ≤ 2 :=
  pool_concurrency_bound 2 ["r1", "r2", "r3"] ⟨1, 2, 0⟩
    (PoolReach.step
      (PoolReach.step PoolReach.refl (PoolStep.start 2 0 0 (by decide)))
      (PoolStep.start 1 1 0 (by decide)))

/-- C5 counterexample to the claim as stated: for the clone URL of a GitHub
Pages repository, `my.github.io`, the code removes the interior occurrence of
`".git"` and produces `myhub.io`, while a strip of only a trailing `".git"`
marker would leave the segment unchanged. -/
theorem repoNameOf_not_trailing_strip :
    repoNameOf "https://github.com/u/my.github.io" = "myhub.io"
      ∧ claimNameTrailing "https://github.com/u/my.github.io" = "my.github.io"
      ∧ repoNameOf "https://github.com/u/my.github.io"
          ≠ claimNameTrailing "https://github.com/u/my.github.io" :=
  ⟨by decide, by decide, by decide⟩

/-- C5 (amended): for every clone URL, the local repository name equals the
URL's final path segment with *every* occurrence of `".git"` removed (the
left-to-right non-overlapping scan of Python's `str.replace`), not only a
trailing one; the derivation is a deterministic function of the URL. -/
theorem repoNameOf_strips_all_occurrences (repo : String) :
    repoNameOf repo
      = String.mk (stripAllDotGit ((pySplit '/' repo.data).getLastD [])) := by
  rw [repoNameOf, replaceDotGit, stripAllDotGit, splitDotGitAux_flatten]

/-- C9: with a retry budget of exactly 0 the loop condition `max_retries > 0`
is false at once: `run_git_clone` makes zero clone attempts and raises the
failure error immediately. -/
theorem run_git_clone_zero_budget (attemptOk : Nat → Bool) (repo_name : String) :
    run_git_clone attemptOk repo_name 0 = (Except.error ⟨repo_name, 0⟩, 0) := rfl

/-- C6: every URL the Lister returns is the `clone_url` of some fetched
descriptor whose fork flag is unset and — when no credential was supplied —
whose private flag is unset; and with a credential, a private non-fork
descriptor's URL can appear in the output. -/
theorem get_public_repos_filters_forks_and_private :
    (∀ (pat_token : Option String) (resps : List (Except ListErr Page))
        (urls : List String) (url : String),
        get_public_repos pat_token resps = Except.ok urls → url ∈ urls →
        ∃ p, Except.ok p ∈ resps ∧ ∃ r, r ∈ p.body ∧ r.clone_url = url
          ∧ r.fork = false ∧ (pat_token = none → r.priv = false))
      ∧ (∃ (pat_token : String) (p : Page) (r : Repo), r ∈ p.body
          ∧ r.fork = false ∧ r.priv = true
          ∧ get_public_repos (some pat_token) [Except.ok p]
              = Except.ok [r.clone_url]) := by
  constructor
  · intro pat_token resps urls url h hu
    exact get_public_repos_sound pat_token resps urls h url hu
  · exact ⟨"t", ⟨[⟨false, true, "https://x/y.git"⟩], false⟩,
      ⟨false, true, "https://x/y.git"⟩, by simp, rfl, rfl, rfl⟩

/-- C6 witness: an unauthenticated listing of one page holding a fork and a
plain repository returns only the plain repository's URL, and its provenance
is established by the theorem. -/
theorem get_public_repos_filters_witness :
    ∃ p, Except.ok p ∈ ([Except.ok ⟨[⟨true, false, "a"⟩, ⟨false, false, "b"⟩],
          false⟩] : List (Except ListErr Page))
      ∧ ∃ r, r ∈ p.body ∧ r.clone_url = "b" ∧ r.fork = false
          ∧ ((none : Option String) = none → r.priv = false) :=
  get_public_repos_filters_forks_and_private.1 none
    [Except.ok ⟨[⟨true, false, "a"⟩, ⟨false, false, "b"⟩], false⟩]
    ["b"] "b" rfl (by simp)

/-- C7: for a listing of N ≥ 1 pages in which pages 1..N-1 carry a `next` link
and page N does not, the Lister returns exactly the concatenation of the
filtered clone URLs of all N pages in page order. -/
theorem get_public_repos_pagination (pat_token : Option String) (ps : List Page)
    (hne : ps ≠ []) (hchain : nextChain ps = true) :
    get_public_repos pat_token (ps.map Except.ok)
      = Except.ok ((ps.map (pageUrls pat_token)).flatten) := by
  rw [get_public_repos, get_public_repos_t_chain pat_token ps hchain]

/-- C7 witness: two pages, the first with a `next` link, concatenated in page
order. -/
theorem get_public_repos_pagination_witness :
    get_public_repos none
        [Except.ok ⟨[⟨false, false, "a"⟩], true⟩,
         Except.ok ⟨[⟨false, false, "b"⟩], false⟩]
      = Except.ok ["a", "b"] := by
  have h := get_public_repos_pagination none
      [⟨[⟨false, false, "a"⟩], true⟩, ⟨[⟨false, false, "b"⟩], false⟩]
      (by simp) (by decide)
  exact h.trans (by rfl)

/-- C8: when a listing request fails after k successful pages, the Lister
issues exactly k + 1 requests — a single attempt at the failing request, no
internal retry — and the failure propagates out of `main` as a fatal listing
error (a `MainErr.listing`, distinct from the per-item outcomes), before any
clone attempt: the trace holds listing requests only. -/
theorem listing_failure_fatal_no_retry (pat_token : Option String)
    (ps : List Page) (hnext : ∀ p ∈ ps, p.hasNext = true) (e : ListErr)
    (tail : List (Except ListErr Page)) (aok : String → Nat → Bool)
    (fs : List String) (directory : String) :
    get_public_repos_t pat_token (ps.map Except.ok ++ Except.error e :: tail)
        = (Except.error e, ps.length + 1)
      ∧ main pat_token (ps.map Except.ok ++ Except.error e :: tail) aok fs
          directory = (Except.error (MainErr.listing e), fetchEvs (ps.length + 1))
      ∧ ∀ u, Ev.attempt u ∉ (main pat_token
          (ps.map Except.ok ++ Except.error e :: tail) aok fs directory).2 := by
  have h1 := get_public_repos_t_err pat_token e tail ps hnext
  refine ⟨h1, by simp [main, h1], ?_⟩
  intro u
  simp [main, h1, fetchEvs]

/-- C8 witness: one page with a `next` link, then a network failure. -/
theorem listing_failure_fatal_no_retry_witness :
    get_public_repos_t none [Except.ok ⟨[], true⟩, Except.error ⟨"net"⟩]
        = (Except.error ⟨"net"⟩, 2)
      ∧ main none [Except.ok ⟨[], true⟩, Except.error ⟨"net"⟩]
          (fun _ _ => true) [] "d"
        = (Except.error (MainErr.listing ⟨"net"⟩), fetchEvs 2)
      ∧ ∀ u, Ev.attempt u ∉ (main none
          [Except.ok ⟨[], true⟩, Except.error ⟨"net"⟩]
          (fun _ _ => true) [] "d").2 := by
  have h := listing_failure_fatal_no_retry none [⟨[], true⟩] (by simp) ⟨"net"⟩ []
      (fun _ _ => true) [] "d"
  exact ⟨h.1, h.2.1, h.2.2⟩

/-- C10: in every run of `main`, all listing requests precede every other
event of the trace; and when the destination directory already exists while
the listing (an N-page chain) succeeds, the run still issues all N listing
requests, then fails at the existence check with a fatal configuration error,
and performs no clone attempt. -/
theorem listing_completes_before_dir_check :
    (∀ (pat_token : Option String) (resps : List (Except ListErr Page))
        (aok : String → Nat → Bool) (fs : List String) (directory : String),
        ∃ n rest, (main pat_token resps aok fs directory).2 = fetchEvs n ++ rest
          ∧ ∀ i, Ev.fetch i ∉ rest)
      ∧ (∀ (pat_token : Option String) (ps : List Page)
          (aok : String → Nat → Bool) (fs : List String) (directory : String),
          nextChain ps = true → directory ∈ fs →
          main pat_token (ps.map Except.ok) aok fs directory
            = (Except.error (MainErr.fatalConfig
                 ("Directory " ++ directory ++ " already exists.")),
               fetchEvs ps.length ++ [Ev.existsCheck])) := by
  constructor
  · intro pat_token resps aok fs directory
    rcases hres : get_public_repos_t pat_token resps with ⟨v, n⟩
    cases v with
    | error e =>
      refine ⟨n, [], ?_, by simp⟩
      simp [main, hres]
    | ok repos =>
      refine ⟨n, (clone_repos aok repos fs directory).2.1, ?_,
        fun i => clone_repos_no_fetch aok repos fs directory i⟩
      rcases hc : clone_repos aok repos fs directory with ⟨res, evs, fs2⟩
      cases res with
      | error m => simp [main, hres, hc]
      | ok outs => simp [main, hres, hc]
  · intro pat_token ps aok fs directory hchain hdir
    have h1 := get_public_repos_t_chain pat_token ps hchain
    simp [main, h1, clone_repos, hdir]

/-- C10 witness: a one-page listing over a pre-existing destination: the
listing request is still issued, then the run dies at the existence check. -/
theorem listing_completes_before_dir_check_witness :
    main none [Except.ok ⟨[⟨false, false, "a"⟩], false⟩] (fun _ _ => true)
        ["d"] "d"
      = (Except.error (MainErr.fatalConfig "Directory d already exists."),
         fetchEvs 1 ++ [Ev.existsCheck]) := by
  have h := listing_completes_before_dir_check.2 none
      [⟨[⟨false, false, "a"⟩], false⟩] (fun _ _ => true) ["d"] "d"
      (by decide) (by simp)
  exact h

end GhCloneAll
